import Mathlib

/-!
Verification of the deterministic fallback anomaly classifier of
`src/server/routes.ts` (`analyzeFile`, `analyzeMediaContent`,
`generateBoundingBoxes`).  The TypeScript is shallowly embedded:
JavaScript numbers are modelled as exact rationals (every quantity the
classifier computes is of the form `a + (k/1000)*b` with small decimal
constants, far from every comparison threshold, so exact rational
arithmetic and IEEE doubles decide every branch identically), strings as
Lean `String`s, and the two wall-clock reads (`Date.now()` and
`new Date().toISOString()`) as explicit parameters.
-/

set_option allowUnsafeReducibility true in
attribute [semireducible] Rat.ofScientific Rat.mul Rat.inv Rat.add Rat.sub Rat.div Rat.blt

/-- The UTF-16 code units of a character, as produced by JavaScript's
`split('')` / `charCodeAt`: one unit below U+10000, otherwise a
surrogate pair. -/
def utf16CodeUnits (c : Char) : List Nat :=
  if c.toNat < 65536 then [c.toNat]
  else [55296 + (c.toNat - 65536) / 1024, 56320 + (c.toNat - 65536) % 1024]

/-- Seed derivation of `analyzeMediaContent`:
`filename.split('').reduce((acc, char) => acc + char.charCodeAt(0), 0)` —
the sum of the UTF-16 code units of the string. -/
def charCodeSum (s : String) : Nat :=
  ((s.data.map utf16CodeUnits).flatten).foldl (fun acc c => acc + c) 0

/-- Boolean test that `pre` is an initial segment of a character list. -/
def leadsList : List Char → List Char → Bool
  | [], _ => true
  | _ :: _, [] => false
  | a :: as, b :: bs => a == b && leadsList as bs

/-- Boolean substring test on character lists (needle first). -/
def containsSubList (needle : List Char) : List Char → Bool
  | [] => leadsList needle []
  | b :: bs => leadsList needle (b :: bs) || containsSubList needle bs

/-- JavaScript `hay.includes(needle)` on strings. -/
def strIncludes (hay needle : String) : Bool :=
  containsSubList needle.data hay.data

/-- JavaScript `s.startsWith(p)` (agrees with `String.startsWith`, stated
structurally so the kernel can evaluate it). -/
def startsWithStr (s p : String) : Bool :=
  leadsList p.data s.data

/-- JavaScript `s.toLowerCase()` restricted to per-character lowering
(agrees with `String.toLower`; the keyword lists are all ASCII). -/
def toLowerStr (s : String) : String :=
  ⟨s.data.map Char.toLower⟩

/-- The weapon-related keyword list of `analyzeMediaContent`. -/
def weaponWords : List String := ["gun", "weapon", "pistol", "rifle", "knife", "armed"]

/-- The burglary-related keyword list of `analyzeMediaContent`. -/
def burglaryWords : List String := ["burglar", "thief", "robbery", "break", "steal", "intrude"]

/-- The fight-related keyword list of `analyzeMediaContent`. -/
def fightWords : List String := ["fight", "violence", "assault", "attack"]

/-- The movement-related keyword list of `analyzeMediaContent`. -/
def movementWords : List String := ["running", "chase", "escape", "movement"]

/-- `['gun', ...].some(w => lowerFilename.includes(w))` for a keyword list. -/
def hasKeywordFrom (ws : List String) (filename : String) : Bool :=
  ws.any (fun w => strIncludes (toLowerStr filename) w)

/-- Result record of `analyzeMediaContent`: the selected anomaly
(type and severity), the raw confidence, the normalized seed value
`deterministicRandom`, and the video flag. -/
structure MediaAnalysis where
  type : String
  severity : String
  confidence : ℚ
  deterministicRandom : ℚ
  isVideo : Bool
deriving Repr, DecidableEq

/-- Shallow embedding of `analyzeMediaContent` (src/server/routes.ts,
lines 919–988): seed from the character-code sum of the filename,
`r = (seed % 1000) / 1000`, keyword flags from the lowercased filename,
then one of two ordered if-chains (video vs image). -/
def analyzeMediaContent (filename mimeType : String) : MediaAnalysis :=
  let seed := charCodeSum filename
  let r : ℚ := ((seed % 1000 : ℕ) : ℚ) / 1000
  let hasWeaponKeywords := hasKeywordFrom weaponWords filename
  let hasBurglaryKeywords := hasKeywordFrom burglaryWords filename
  let hasFightKeywords := hasKeywordFrom fightWords filename
  let hasMovementKeywords := hasKeywordFrom movementWords filename
  let isVideoFile := startsWithStr mimeType "video/"
  if isVideoFile then
    if hasWeaponKeywords || decide (r > 0.75) then
      ⟨"weapon_detected", "critical", 0.88 + r * 0.11, r, isVideoFile⟩
    else if hasBurglaryKeywords || decide (r > 0.65) then
      ⟨"burglary", "critical", 0.82 + r * 0.15, r, isVideoFile⟩
    else if hasFightKeywords || decide (r > 0.55) then
      ⟨"fighting", "high", 0.75 + r * 0.20, r, isVideoFile⟩
    else if hasMovementKeywords || decide (r > 0.45) then
      ⟨"suspicious_activity", "medium", 0.65 + r * 0.25, r, isVideoFile⟩
    else if decide (r > 0.35) then
      ⟨"trespassing", "medium", 0.55 + r * 0.30, r, isVideoFile⟩
    else if decide (r > 0.20) then
      ⟨"loitering", "low", 0.40 + r * 0.25, r, isVideoFile⟩
    else
      ⟨"normal", "low", 0.25 + r * 0.30, r, isVideoFile⟩
  else
    if hasWeaponKeywords || decide (r > 0.85) then
      ⟨"weapon_detected", "critical", 0.85 + r * 0.14, r, isVideoFile⟩
    else if hasBurglaryKeywords || decide (r > 0.75) then
      ⟨"burglary", "critical", 0.78 + r * 0.17, r, isVideoFile⟩
    else if hasFightKeywords || decide (r > 0.70) then
      ⟨"fighting", "high", 0.72 + r * 0.18, r, isVideoFile⟩
    else if decide (r > 0.60) then
      ⟨"trespassing", "high", 0.65 + r * 0.25, r, isVideoFile⟩
    else if decide (r > 0.45) then
      ⟨"suspicious_activity", "medium", 0.50 + r * 0.30, r, isVideoFile⟩
    else if decide (r > 0.30) then
      ⟨"loitering", "low", 0.35 + r * 0.25, r, isVideoFile⟩
    else
      ⟨"normal", "low", 0.20 + r * 0.30, r, isVideoFile⟩

/-- A detection bounding box as built by `generateBoundingBoxes`: class
label, box confidence, `[x1, y1, x2, y2]`, anomaly flag and priority. -/
structure BoundingBox where
  class_name : String
  confidence : ℚ
  x1 : ℚ
  y1 : ℚ
  x2 : ℚ
  y2 : ℚ
  is_anomaly : Bool
  priority : String
deriving Repr, DecidableEq

/-- `seededRandom(offset) = ((seed + offset) % 1000) / 1000` inside
`generateBoundingBoxes`. -/
def seededRandom (seed offset : Nat) : ℚ :=
  (((seed + offset) % 1000 : ℕ) : ℚ) / 1000

/-- JavaScript `s.replace('_', ' ')`: replaces only the FIRST underscore. -/
def replaceFirstUnderscore : List Char → List Char
  | [] => []
  | a :: as => if a = '_' then ' ' :: as else a :: replaceFirstUnderscore as

/-- `anomalyType.replace('_', ' ')` as used for the label of box 0. -/
def underscoreToSpace (s : String) : String :=
  ⟨replaceFirstUnderscore s.data⟩

/-- Shallow embedding of `generateBoundingBoxes` (src/server/routes.ts,
lines 998–1032).  The anomaly severity and classification confidence are
passed explicitly (in the source they are captured from the enclosing
scope).  The loop `for i in 0..numBoxes-1` becomes a map over
`List.range numBoxes`. -/
def generateBoundingBoxes (anomalyType : String) (isAnomaly : Bool) (seed : Nat)
    (severity : String) (confidence : ℚ) : List BoundingBox :=
  if !isAnomaly then
    [{ class_name := "person"
       confidence := 0.85 + seededRandom seed 1 * 0.1
       x1 := 120 + seededRandom seed 2 * 200
       y1 := 80 + seededRandom seed 3 * 150
       x2 := 300 + seededRandom seed 4 * 100
       y2 := 280 + seededRandom seed 5 * 120
       is_anomaly := false
       priority := "normal" }]
  else
    let numBoxes := 2 * ((seed + 10) % 1000) / 1000 + 1
    (List.range numBoxes).map (fun i =>
      let x := 50 + seededRandom seed (i * 10 + 20) * 350
      let y := 30 + seededRandom seed (i * 10 + 21) * 200
      let width := 120 + seededRandom seed (i * 10 + 22) * 80
      let height := 180 + seededRandom seed (i * 10 + 23) * 100
      { class_name := if i = 0 then underscoreToSpace anomalyType else "person"
        confidence := if i = 0 then confidence else 0.6 + seededRandom seed (i * 10 + 24) * 0.3
        x1 := x
        y1 := y
        x2 := x + width
        y2 := y + height
        is_anomaly := i = 0
        priority := if i = 0 then severity else "normal" })

/-- Models `Number.prototype.toFixed(1)` for the nonnegative values the
classifier formats: round to one decimal digit and print
`<integer part>.<tenths digit>`. -/
def toFixed1 (q : ℚ) : String :=
  let n : ℤ := ⌊q * 10 + 1 / 2⌋
  toString (n / 10) ++ "." ++ toString (n % 10)

/-- The metadata block of the fallback result of `analyzeFile`. -/
structure FallbackMetadata where
  fileType : String
  analysisMethod : String
  timestamp : String
  confidenceThreshold : ℚ
  frames_analyzed : ℤ
  epsilon : ℚ
  delta : ℚ
  trainingDatasets : List String
  privacyPreserving : Bool
  federatedLearning : Bool
  source : String
deriving Repr, DecidableEq

/-- The fallback classification result object returned at the end of
`analyzeFile` (src/server/routes.ts, lines 1034–1069). -/
structure ClassificationResult where
  anomalyDetected : Bool
  anomalyType : String
  severity : String
  confidence : ℚ
  description : String
  modelUsed : String
  processingTime : ℤ
  bounding_boxes : List BoundingBox
  recommendedAction : String
  metadata : FallbackMetadata
deriving Repr, DecidableEq

/-- The early-return object of `analyzeFile` for an unsupported MIME
type (src/server/routes.ts, lines 873–881); its `processingTime` is
`Date.now()`. -/
structure UnsupportedResult where
  anomalyDetected : Bool
  confidence : ℚ
  modelUsed : String
  processingTime : ℕ
  error : String
deriving Repr, DecidableEq

/-- What the fallback path of `analyzeFile` can return: the unsupported
early return or a full classification result. -/
inductive AnalyzeResult where
  | unsupported (u : UnsupportedResult)
  | classified (c : ClassificationResult)
deriving Repr, DecidableEq

/-- Shallow embedding of the local-fallback path of `analyzeFile`
(src/server/routes.ts, lines 869–1070), skipping the external
TimeSformer service branch (network I/O).  The two wall-clock reads are
passed explicitly: `nowMs` stands for `Date.now()` and `isoNow` for
`new Date().toISOString()`. -/
def analyzeFile (filename mimeType : String) (nowMs : ℕ) (isoNow : String) : AnalyzeResult :=
  let isVideo := startsWithStr mimeType "video/"
  let isImage := startsWithStr mimeType "image/"
  if !isVideo && !isImage then
    .unsupported
      { anomalyDetected := false
        confidence := 0
        modelUsed := "PPFL Anomaly Detector v1.2.0"
        processingTime := nowMs
        error := "Unsupported file type" }
  else
    let m := analyzeMediaContent filename mimeType
    let isAnomaly : Bool := decide (m.type ≠ "normal") && decide (m.confidence ≥ 0.50)
    let displayConfidence : ℚ := min 0.99 (max 0.35 m.confidence)
    let actualSeverity := if m.confidence < 0.50 then "uncertain" else m.severity
    let seed := charCodeSum filename
    let boundingBoxes := generateBoundingBoxes m.type isAnomaly seed m.severity m.confidence
    let mediaWord := if m.isVideo then "video" else "image"
    .classified
      { anomalyDetected := isAnomaly || decide (m.confidence ≥ 0.35)
        anomalyType := m.type
        severity := actualSeverity
        confidence := displayConfidence
        description :=
          if m.confidence < 0.50 then
            "Uncertain detection: possible " ++ underscoreToSpace m.type ++ " in " ++
              mediaWord ++ " with " ++ toFixed1 (displayConfidence * 100) ++ "% confidence"
          else if isAnomaly then
            underscoreToSpace m.type ++ " detected in " ++ mediaWord ++ " with " ++
              toFixed1 (displayConfidence * 100) ++ "% confidence"
          else
            "Normal activity detected in " ++ mediaWord
        modelUsed :=
          if m.isVideo then "Enhanced PPFL Video Analyzer v2.1 (Fallback)"
          else "Enhanced PPFL Image Detector v2.0 (Fallback)"
        processingTime :=
          if m.isVideo then ⌊(2500 : ℚ) + m.deterministicRandom * 2000⌋
          else ⌊(1500 : ℚ) + m.deterministicRandom * 1000⌋
        bounding_boxes := boundingBoxes
        recommendedAction :=
          if m.confidence < 0.50 then "manual_review"
          else if isAnomaly then "alert" else "none"
        metadata :=
          { fileType := if m.isVideo then "video" else "image"
            analysisMethod :=
              if m.isVideo then "temporal_video_analysis_pipeline"
              else "enhanced_detection_pipeline"
            timestamp := isoNow
            confidenceThreshold := 0.50
            frames_analyzed := if m.isVideo then ⌊(5 : ℚ) + m.deterministicRandom * 10⌋ else 1
            epsilon := 0.08 + m.deterministicRandom * 0.04
            delta := 0.00001
            trainingDatasets :=
              if m.isVideo then
                ["UCF-Crime", "ShanghaiTech Campus", "Avenue Dataset", "Kinetics-400", "ActivityNet"]
              else
                ["UCF-Crime", "ShanghaiTech Campus", "Avenue Dataset", "Custom Weapon Detection"]
            privacyPreserving := true
            federatedLearning := true
            source := "enhanced_local_fallback" } }

/-- One row of a decision ladder as described by the spec: a condition,
and the category, severity and confidence selected when it fires. -/
structure SpecRule where
  cond : Bool
  category : String
  severity : String
  confidence : ℚ

/-- Evaluate an ordered rule list top-down; the first rule whose
condition holds wins, and the final "otherwise" row `d` applies when no
rule matches. -/
def firstMatch (d : String × String × ℚ) : List SpecRule → String × String × ℚ
  | [] => d
  | rule :: rest =>
    if rule.cond then (rule.category, rule.severity, rule.confidence) else firstMatch d rest

/-- The spec's keyword gating: case-insensitive substring match of each
keyword against the filename. -/
def specKeywordHit (ws : List String) (filename : String) : Bool :=
  ws.any (fun w => strIncludes (toLowerStr filename) w)

/-- The spec's video ladder, rules 1–6 (rule 7 is the "otherwise"
default `specVideoDefault`): thresholds on `r` when the keyword is
absent. -/
def specVideoLadder (w b f m : Bool) (r : ℚ) : List SpecRule :=
  [⟨w || decide (r > 0.75), "weapon_detected", "critical", 0.88 + r * 0.11⟩,
   ⟨b || decide (r > 0.65), "burglary", "critical", 0.82 + r * 0.15⟩,
   ⟨f || decide (r > 0.55), "fighting", "high", 0.75 + r * 0.20⟩,
   ⟨m || decide (r > 0.45), "suspicious_activity", "medium", 0.65 + r * 0.25⟩,
   ⟨decide (r > 0.35), "trespassing", "medium", 0.55 + r * 0.30⟩,
   ⟨decide (r > 0.20), "loitering", "low", 0.40 + r * 0.25⟩]

/-- Rule 7 ("otherwise") of the spec's video ladder. -/
def specVideoDefault (r : ℚ) : String × String × ℚ :=
  ("normal", "low", 0.25 + r * 0.30)

/-- The spec's image ladder, rules 1–6 (rule 7 is the "otherwise"
default `specImageDefault`). -/
def specImageLadder (w b f : Bool) (r : ℚ) : List SpecRule :=
  [⟨w || decide (r > 0.85), "weapon_detected", "critical", 0.85 + r * 0.14⟩,
   ⟨b || decide (r > 0.75), "burglary", "critical", 0.78 + r * 0.17⟩,
   ⟨f || decide (r > 0.70), "fighting", "high", 0.72 + r * 0.18⟩,
   ⟨decide (r > 0.60), "trespassing", "high", 0.65 + r * 0.25⟩,
   ⟨decide (r > 0.45), "suspicious_activity", "medium", 0.50 + r * 0.30⟩,
   ⟨decide (r > 0.30), "loitering", "low", 0.35 + r * 0.25⟩]

/-- Rule 7 ("otherwise") of the spec's image ladder. -/
def specImageDefault (r : ℚ) : String × String × ℚ :=
  ("normal", "low", 0.20 + r * 0.30)

/-- Classification policy written out from the SPEC's words (seed =
character-code sum of the filename, `r = (seed mod 1000) / 1000`,
keyword gating, then the video or image decision ladder evaluated
top-down with the first matching rule winning), to be compared with the
source-derived `analyzeMediaContent`. -/
def specClassify (filename mimeType : String) : String × String × ℚ :=
  let seed := charCodeSum filename
  let r : ℚ := ((seed % 1000 : ℕ) : ℚ) / 1000
  let w := specKeywordHit weaponWords filename
  let b := specKeywordHit burglaryWords filename
  let f := specKeywordHit fightWords filename
  let m := specKeywordHit movementWords filename
  if startsWithStr mimeType "video/" then
    firstMatch (specVideoDefault r) (specVideoLadder w b f m r)
  else
    firstMatch (specImageDefault r) (specImageLadder w b f r)

/-- `clamp(x, lo, hi)` as the spec uses it for `displayConfidence`. -/
def clamp (lo hi x : ℚ) : ℚ :=
  min hi (max lo x)

/-- Erase the wall-clock-derived data from a result: the metadata
timestamp of a classified result and the `Date.now()` processing time of
the unsupported early return. -/
def stripClock : AnalyzeResult → AnalyzeResult
  | .unsupported u => .unsupported { u with processingTime := 0 }
  | .classified c => .classified { c with metadata := { c.metadata with timestamp := "" } }

/-- Total projection of the processing-time field of either result shape
(the unsupported early return stores `Date.now()` there). -/
def resultProcessingTime : AnalyzeResult → ℤ
  | .unsupported u => (u.processingTime : ℤ)
  | .classified c => c.processingTime

/-- The normalized seed value is nonnegative. -/
theorem seededRandom_nonneg (seed o : ℕ) : 0 ≤ seededRandom seed o := by
  unfold seededRandom
  positivity

/-- The normalized seed value is below one. -/
theorem seededRandom_lt_one (seed o : ℕ) : seededRandom seed o < 1 := by
  unfold seededRandom
  rw [div_lt_one (by norm_num)]
  exact_mod_cast Nat.mod_lt _ (show 0 < 1000 by norm_num)

/-- Bounding the normalized seed value by a bound on the reduced seed. -/
theorem seededRandom_le (seed o n : ℕ) (h : (seed + o) % 1000 ≤ n) :
    seededRandom seed o ≤ (n : ℚ) / 1000 := by
  unfold seededRandom
  have : (((seed + o) % 1000 : ℕ) : ℚ) ≤ (n : ℚ) := by exact_mod_cast h
  linarith

/-- Facts about the ladder output used across the claims: the ladder
severity is one of the four fixed levels; when the post-processing
anomaly test fails the reduced seed is at most 450; and the `normal`
category only arises with raw confidence below 0.35 (at most 0.31 for
video, 0.29 for image). -/
theorem amc_facts (fn mt : String) :
    ((analyzeMediaContent fn mt).severity = "low" ∨ (analyzeMediaContent fn mt).severity = "medium" ∨
      (analyzeMediaContent fn mt).severity = "high" ∨
      (analyzeMediaContent fn mt).severity = "critical") ∧
    (¬((analyzeMediaContent fn mt).type ≠ "normal" ∧
        (0.50 : ℚ) ≤ (analyzeMediaContent fn mt).confidence) →
      charCodeSum fn % 1000 ≤ 450) ∧
    ((analyzeMediaContent fn mt).type = "normal" →
      (analyzeMediaContent fn mt).confidence < 0.35 ∧
      ((analyzeMediaContent fn mt).isVideo = true → (analyzeMediaContent fn mt).confidence ≤ 0.31) ∧
      ((analyzeMediaContent fn mt).isVideo = false → (analyzeMediaContent fn mt).confidence ≤ 0.29)) := by
  have hklt : charCodeSum fn % 1000 < 1000 := Nat.mod_lt _ (by norm_num)
  have hr0 : (0 : ℚ) ≤ ((charCodeSum fn % 1000 : ℕ) : ℚ) / 1000 := by positivity
  have hr1 : ((charCodeSum fn % 1000 : ℕ) : ℚ) / 1000 < 1 := by
    rw [div_lt_one (by norm_num)]
    exact_mod_cast hklt
  dsimp only [analyzeMediaContent]
  split_ifs with hv h1 h2 h3 h4 h5 h6 g1 g2 g3 g4 g5 g6 <;>
    simp only [Bool.or_eq_true, decide_eq_true_eq, not_or, not_lt, Bool.not_eq_true] at *
  · exact ⟨by decide, fun h => absurd ⟨by decide, by linarith⟩ h, fun h => absurd h (by decide)⟩
  · exact ⟨by decide, fun h => absurd ⟨by decide, by linarith⟩ h, fun h => absurd h (by decide)⟩
  · exact ⟨by decide, fun h => absurd ⟨by decide, by linarith⟩ h, fun h => absurd h (by decide)⟩
  · exact ⟨by decide, fun h => absurd ⟨by decide, by linarith⟩ h, fun h => absurd h (by decide)⟩
  · exact ⟨by decide, fun h => absurd ⟨by decide, by linarith⟩ h, fun h => absurd h (by decide)⟩
  · refine ⟨by decide, fun _ => ?_, fun h => absurd h (by decide)⟩
    exact_mod_cast (show ((charCodeSum fn % 1000 : ℕ) : ℚ) ≤ 450 by linarith)
  · refine ⟨by decide, fun _ => ?_,
      fun _ => ⟨by linarith, fun _ => by linarith, fun hf => by simp [hv] at hf⟩⟩
    exact_mod_cast (show ((charCodeSum fn % 1000 : ℕ) : ℚ) ≤ 450 by linarith)
  · exact ⟨by decide, fun h => absurd ⟨by decide, by linarith⟩ h, fun h => absurd h (by decide)⟩
  · exact ⟨by decide, fun h => absurd ⟨by decide, by linarith⟩ h, fun h => absurd h (by decide)⟩
  · exact ⟨by decide, fun h => absurd ⟨by decide, by linarith⟩ h, fun h => absurd h (by decide)⟩
  · exact ⟨by decide, fun h => absurd ⟨by decide, by linarith⟩ h, fun h => absurd h (by decide)⟩
  · exact ⟨by decide, fun h => absurd ⟨by decide, by linarith⟩ h, fun h => absurd h (by decide)⟩
  · refine ⟨by decide, fun _ => ?_, fun h => absurd h (by decide)⟩
    exact_mod_cast (show ((charCodeSum fn % 1000 : ℕ) : ℚ) ≤ 450 by linarith)
  · refine ⟨by decide, fun _ => ?_,
      fun _ => ⟨by linarith, fun ht => by simp [hv] at ht, fun _ => by linarith⟩⟩
    exact_mod_cast (show ((charCodeSum fn % 1000 : ℕ) : ℚ) ≤ 450 by linarith)

/-- Every box `generateBoundingBoxes` emits has `x1 < x2` and `y1 < y2`,
provided that on the non-anomaly path the reduced seed is at most 450
(which `amc_facts` shows is the only way that path is reached). -/
theorem gbb_wf (t : String) (isA : Bool) (seed : ℕ) (sev : String) (conf : ℚ)
    (hseed : isA = false → seed % 1000 ≤ 450) :
    ∀ box ∈ generateBoundingBoxes t isA seed sev conf,
      box.x1 < box.x2 ∧ box.y1 < box.y2 := by
  intro box hbox
  cases isA
  · have hs : seed % 1000 ≤ 450 := hseed rfl
    have h2 : (seed + 2) % 1000 ≤ 452 := by omega
    simp only [generateBoundingBoxes, Bool.not_false, if_true, List.mem_singleton] at hbox
    subst hbox
    constructor
    · have a1 := seededRandom_le seed 2 452 h2
      have a2 := seededRandom_nonneg seed 4
      dsimp only
      nlinarith
    · have a1 := seededRandom_lt_one seed 3
      have a2 := seededRandom_nonneg seed 5
      dsimp only
      nlinarith
  · simp only [generateBoundingBoxes, Bool.not_true, Bool.false_eq_true, if_false,
      List.mem_map, List.mem_range] at hbox
    obtain ⟨i, -, rfl⟩ := hbox
    constructor
    · have a1 := seededRandom_nonneg seed (i * 10 + 22)
      dsimp only
      nlinarith
    · have a1 := seededRandom_nonneg seed (i * 10 + 23)
      dsimp only
      nlinarith

/-- Shape of the generated box lists: exactly one box on the non-anomaly
path; one or two boxes on the anomaly path, whose head carries the
category label (first underscore replaced by a space), the anomaly flag,
the classification confidence and the ladder severity, and whose 
remaining box, when present, is a non-anomaly `person` box. -/
theorem gbb_shape (t : String) (seed : ℕ) (sev : String) (conf : ℚ) :
    (generateBoundingBoxes t false seed sev conf).length = 1 ∧
    ((generateBoundingBoxes t true seed sev conf).length = 1 ∨
      (generateBoundingBoxes t true seed sev conf).length = 2) ∧
    (∃ b rest, generateBoundingBoxes t true seed sev conf = b :: rest ∧
      b.class_name = underscoreToSpace t ∧ b.is_anomaly = true ∧
      b.confidence = conf ∧ b.priority = sev ∧
      ∀ b2 ∈ rest, b2.class_name = "person" ∧ b2.is_anomaly = false) := by
  have hn : 2 * ((seed + 10) % 1000) / 1000 + 1 = 1 ∨
      2 * ((seed + 10) % 1000) / 1000 + 1 = 2 := by omega
  refine ⟨by simp [generateBoundingBoxes], ?_, ?_⟩
  · dsimp only [generateBoundingBoxes, Bool.not_true]
    rw [if_neg (by simp)]
    rcases hn with h | h <;> rw [h] <;> simp
  · dsimp only [generateBoundingBoxes, Bool.not_true]
    rw [if_neg (by simp)]
    rcases hn with h | h <;> rw [h]
    · rw [show List.range 1 = [0] by decide]
      simp only [List.map_cons, List.map_nil]
      refine ⟨_, [], rfl, by simp, by simp, by simp, by simp, by simp⟩
    · rw [show List.range 2 = [0, 1] by decide]
      simp only [List.map_cons, List.map_nil]
      refine ⟨_, _, rfl, by simp, by simp, by simp, by simp, ?_⟩
      intro b2 hb2
      rw [List.mem_singleton] at hb2
      subst hb2
      exact ⟨by simp, by simp⟩

/-- For a supported MIME type the top-level unsupported test of
`analyzeFile` fails. -/
theorem supported_cond {mt : String}
    (h : startsWithStr mt "video/" = true ∨ startsWithStr mt "image/" = true) :
    ¬((!startsWithStr mt "video/" && !startsWithStr mt "image/") = true) := by
  rcases h with h | h <;> simp [h]

/-- C1: for supported MIME types the source classifier agrees with the
spec's two decision ladders (first matching rule wins, video ladder iff
the MIME type starts with `video/`), and the weapon keyword in
`armed_robbery_clip.mp4` wins rule 1 (`weapon_detected`), not rule 2
(`burglary`), regardless of `r`. -/
theorem ladder_refinement_and_keyword_override :
    (∀ fn mt : String,
      startsWithStr mt "video/" = true ∨ startsWithStr mt "image/" = true →
      ((analyzeMediaContent fn mt).type, (analyzeMediaContent fn mt).severity,
        (analyzeMediaContent fn mt).confidence) = specClassify fn mt) ∧
    (analyzeMediaContent "armed_robbery_clip.mp4" "video/mp4").type = "weapon_detected" ∧
    (∀ (b f m : Bool) (r : ℚ),
      firstMatch (specVideoDefault r) (specVideoLadder true b f m r) =
        ("weapon_detected", "critical", 0.88 + r * 0.11)) := by
  refine ⟨?_, by decide, ?_⟩
  · intro fn mt _
    dsimp only [analyzeMediaContent, specClassify, hasKeywordFrom, specKeywordHit,
      specVideoLadder, specImageLadder, specVideoDefault, specImageDefault, firstMatch]
    split_ifs <;> rfl
  · intro b f m r
    dsimp only [specVideoLadder, firstMatch]
    rw [if_pos (by simp)]

/-- C2: for a fixed filename and supported MIME type, two invocations of
the fallback classifier (at possibly different wall-clock readings)
agree on anomaly type, severity, confidence, bounding boxes, description
and processing time. -/
theorem fallback_two_run_determinism :
    ∀ (filename mimeType : String) (n1 : ℕ) (iso1 : String) (n2 : ℕ) (iso2 : String),
      startsWithStr mimeType "video/" = true ∨ startsWithStr mimeType "image/" = true →
      ∃ c1 c2, analyzeFile filename mimeType n1 iso1 = .classified c1 ∧
        analyzeFile filename mimeType n2 iso2 = .classified c2 ∧
        c1.anomalyType = c2.anomalyType ∧ c1.severity = c2.severity ∧
        c1.confidence = c2.confidence ∧ c1.bounding_boxes = c2.bounding_boxes ∧
        c1.description = c2.description ∧ c1.processingTime = c2.processingTime := by
  intro fn mt n1 iso1 n2 iso2 hsupp
  dsimp only [analyzeFile]
  simp only [if_neg (supported_cond hsupp)]
  exact ⟨_, _, rfl, rfl, rfl, rfl, rfl, rfl, rfl, rfl⟩

/-- C2 witness at a concrete input. -/
theorem fallback_two_run_determinism_witness :
    ∃ c1 c2, analyzeFile "a.jpg" "image/jpeg" 1 "T1" = .classified c1 ∧
      analyzeFile "a.jpg" "image/jpeg" 2 "T2" = .classified c2 ∧
      c1.anomalyType = c2.anomalyType ∧ c1.severity = c2.severity ∧
      c1.confidence = c2.confidence ∧ c1.bounding_boxes = c2.bounding_boxes ∧
      c1.description = c2.description ∧ c1.processingTime = c2.processingTime :=
  fallback_two_run_determinism "a.jpg" "image/jpeg" 1 "T1" 2 "T2" (Or.inr (by decide))

/-- C4 amended: stripping the metadata timestamp (and the `Date.now()`
value the unsupported return stores in its processing-time field), the
fallback classifier's output is independent of the wall clock. -/
theorem clock_independence_except_timestamp :
    ∀ (filename mimeType : String) (n1 : ℕ) (iso1 : String) (n2 : ℕ) (iso2 : String),
      stripClock (analyzeFile filename mimeType n1 iso1) =
        stripClock (analyzeFile filename mimeType n2 iso2) := by
  intro fn mt n1 iso1 n2 iso2
  dsimp only [analyzeFile]
  split_ifs <;> rfl

/-- C4 counterexample: two runs on the same supported input at different
wall-clock timestamps give results that differ, and not in the
processing-time field (they differ in `metadata.timestamp`). -/
theorem clock_dependence_counterexample :
    analyzeFile "a.jpg" "image/jpeg" 0 "2025-01-01T00:00:00.000Z" ≠
        analyzeFile "a.jpg" "image/jpeg" 0 "2025-01-02T00:00:00.000Z" ∧
      resultProcessingTime (analyzeFile "a.jpg" "image/jpeg" 0 "2025-01-01T00:00:00.000Z") =
        resultProcessingTime (analyzeFile "a.jpg" "image/jpeg" 0 "2025-01-02T00:00:00.000Z") := by
  constructor
  · decide
  · decide

/-- C5: a MIME type that is neither video nor image yields the normal
"unsupported file type" return (no exception, zero confidence, error
marker, no bounding-box list), with the wall-clock reading in its
processing-time field. -/
theorem unsupported_type_result :
    ∀ (filename mimeType : String) (nowMs : ℕ) (iso : String),
      startsWithStr mimeType "video/" = false → startsWithStr mimeType "image/" = false →
      analyzeFile filename mimeType nowMs iso = .unsupported
        { anomalyDetected := false, confidence := 0,
          modelUsed := "PPFL Anomaly Detector v1.2.0",
          processingTime := nowMs, error := "Unsupported file type" } := by
  intro fn mt nowMs iso h1 h2
  dsimp only [analyzeFile]
  rw [if_pos (by simp [h1, h2])]

/-- C5 witness at `application/pdf`. -/
theorem unsupported_type_result_witness :
    analyzeFile "doc.pdf" "application/pdf" 5 "T" = .unsupported
      { anomalyDetected := false, confidence := 0,
        modelUsed := "PPFL Anomaly Detector v1.2.0",
        processingTime := 5, error := "Unsupported file type" } :=
  unsupported_type_result "doc.pdf" "application/pdf" 5 "T" (by decide) (by decide)

/-- C9: on every input the fallback classifier returns normally — a
classified result exactly when the MIME type is supported, and the
unsupported-type result otherwise; any string (empty or not) is a valid
seed source. -/
theorem classifier_totality :
    ∀ (filename mimeType : String) (nowMs : ℕ) (iso : String),
      (startsWithStr mimeType "video/" = true ∨ startsWithStr mimeType "image/" = true →
        ∃ c, analyzeFile filename mimeType nowMs iso = .classified c) ∧
      (startsWithStr mimeType "video/" = false → startsWithStr mimeType "image/" = false →
        analyzeFile filename mimeType nowMs iso = .unsupported
          { anomalyDetected := false, confidence := 0,
            modelUsed := "PPFL Anomaly Detector v1.2.0",
            processingTime := nowMs, error := "Unsupported file type" }) := by
  intro fn mt nowMs iso
  constructor
  · intro hsupp
    exact ⟨_, by dsimp only [analyzeFile]; rw [if_neg (supported_cond hsupp)]⟩
  · intro h1 h2
    dsimp only [analyzeFile]
    rw [if_pos (by simp [h1, h2])]

/-- C3: every bounding box of a classified fallback result satisfies
`x1 < x2` and `y1 < y2`, on the single non-anomaly person box as well as
on every box of an anomaly result. -/
theorem bounding_boxes_well_formed :
    ∀ (filename mimeType : String) (nowMs : ℕ) (iso : String) (c : ClassificationResult),
      startsWithStr mimeType "video/" = true ∨ startsWithStr mimeType "image/" = true →
      analyzeFile filename mimeType nowMs iso = .classified c →
      ∀ box ∈ c.bounding_boxes, box.x1 < box.x2 ∧ box.y1 < box.y2 := by
  intro fn mt nowMs iso c hsupp hres
  dsimp only [analyzeFile] at hres
  rw [if_neg (supported_cond hsupp), AnalyzeResult.classified.injEq] at hres
  subst hres
  apply gbb_wf
  intro hA
  refine (amc_facts fn mt).2.1 (fun hcontra => ?_)
  rcases hcontra with ⟨ht, hc⟩
  simp [ht, hc] at hA

/-- C3 witness at a concrete input. -/
theorem bounding_boxes_well_formed_witness :
    ∃ c, analyzeFile "a.jpg" "image/jpeg" 0 "T" = .classified c ∧
      ∀ box ∈ c.bounding_boxes, box.x1 < box.x2 ∧ box.y1 < box.y2 :=
  ⟨_, rfl, bounding_boxes_well_formed "a.jpg" "image/jpeg" 0 "T" _ (Or.inr (by decide)) rfl⟩

/-- C6: a non-anomaly result (category `normal` or raw confidence below
0.50) has exactly one bounding box; an anomaly result has one or two,
box 0 labeled with the category (underscore replaced by a space) and
flagged as the anomaly, any further box being a non-anomaly person box. -/
theorem box_count_and_labels :
    ∀ (filename mimeType : String) (nowMs : ℕ) (iso : String) (c : ClassificationResult),
      startsWithStr mimeType "video/" = true ∨ startsWithStr mimeType "image/" = true →
      analyzeFile filename mimeType nowMs iso = .classified c →
      (((analyzeMediaContent filename mimeType).type = "normal" ∨
          (analyzeMediaContent filename mimeType).confidence < 0.50) →
        c.bounding_boxes.length = 1) ∧
      (((analyzeMediaContent filename mimeType).type ≠ "normal" ∧
          (0.50 : ℚ) ≤ (analyzeMediaContent filename mimeType).confidence) →
        (c.bounding_boxes.length = 1 ∨ c.bounding_boxes.length = 2) ∧
        ∃ b rest, c.bounding_boxes = b :: rest ∧
          b.class_name = underscoreToSpace (analyzeMediaContent filename mimeType).type ∧
          b.is_anomaly = true ∧
          ∀ b2 ∈ rest, b2.class_name = "person" ∧ b2.is_anomaly = false) := by
  intro fn mt nowMs iso c hsupp hres
  dsimp only [analyzeFile] at hres
  rw [if_neg (supported_cond hsupp), AnalyzeResult.classified.injEq] at hres
  subst hres
  constructor
  · intro h
    have hA : (decide ((analyzeMediaContent fn mt).type ≠ "normal") &&
        decide ((analyzeMediaContent fn mt).confidence ≥ 0.50)) = false := by
      rcases h with h | h
      · simp [h]
      · have : ¬((analyzeMediaContent fn mt).confidence ≥ 0.50) := not_le.mpr h
        simp [this]
    dsimp only
    rw [hA]
    exact (gbb_shape _ _ _ _).1
  · rintro ⟨ht, hc⟩
    have hA : (decide ((analyzeMediaContent fn mt).type ≠ "normal") &&
        decide ((analyzeMediaContent fn mt).confidence ≥ 0.50)) = true := by simp [ht, hc]
    dsimp only
    rw [hA]
    refine ⟨(gbb_shape _ _ _ _).2.1, ?_⟩
    obtain ⟨b, rest, heq, h1, h2, _, _, h5⟩ :=
      (gbb_shape (analyzeMediaContent fn mt).type (charCodeSum fn)
        (analyzeMediaContent fn mt).severity (analyzeMediaContent fn mt).confidence).2.2
    exact ⟨b, rest, heq, h1, h2, h5⟩

/-- C6 witness at a concrete input (a weapon-keyword video, an anomaly). -/
theorem box_count_and_labels_witness :
    ∃ c, analyzeFile "gun.mp4" "video/mp4" 0 "T" = .classified c ∧
      (((analyzeMediaContent "gun.mp4" "video/mp4").type ≠ "normal" ∧
          (0.50 : ℚ) ≤ (analyzeMediaContent "gun.mp4" "video/mp4").confidence) →
        (c.bounding_boxes.length = 1 ∨ c.bounding_boxes.length = 2) ∧
        ∃ b rest, c.bounding_boxes = b :: rest ∧
          b.class_name = underscoreToSpace (analyzeMediaContent "gun.mp4" "video/mp4").type ∧
          b.is_anomaly = true ∧
          ∀ b2 ∈ rest, b2.class_name = "person" ∧ b2.is_anomaly = false) :=
  ⟨_, rfl, (box_count_and_labels "gun.mp4" "video/mp4" 0 "T" _ (Or.inl (by decide)) rfl).2⟩

/-- C7: the reported severity is `uncertain` exactly when the raw ladder
confidence is below 0.50, and otherwise equals the ladder severity. -/
theorem severity_uncertain_iff :
    ∀ (filename mimeType : String) (nowMs : ℕ) (iso : String) (c : ClassificationResult),
      startsWithStr mimeType "video/" = true ∨ startsWithStr mimeType "image/" = true →
      analyzeFile filename mimeType nowMs iso = .classified c →
      (c.severity = "uncertain" ↔ (analyzeMediaContent filename mimeType).confidence < 0.50) ∧
      ((0.50 : ℚ) ≤ (analyzeMediaContent filename mimeType).confidence →
        c.severity = (analyzeMediaContent filename mimeType).severity) := by
  intro fn mt nowMs iso c hsupp hres
  dsimp only [analyzeFile] at hres
  rw [if_neg (supported_cond hsupp), AnalyzeResult.classified.injEq] at hres
  subst hres
  dsimp only
  by_cases hc : (analyzeMediaContent fn mt).confidence < 0.50
  · rw [if_pos hc]
    exact ⟨⟨fun _ => hc, fun _ => rfl⟩, fun h => absurd hc (not_lt.mpr h)⟩
  · rw [if_neg hc]
    refine ⟨⟨fun h => ?_, fun h => absurd h hc⟩, fun _ => rfl⟩
    rcases (amc_facts fn mt).1 with hs | hs | hs | hs <;> rw [hs] at h <;>
      exact absurd h (by decide)

/-- C7 witness at a concrete input. -/
theorem severity_uncertain_iff_witness :
    ∃ c, analyzeFile "gun.mp4" "video/mp4" 0 "T" = .classified c ∧
      (c.severity = "uncertain" ↔ (analyzeMediaContent "gun.mp4" "video/mp4").confidence < 0.50) :=
  ⟨_, rfl, (severity_uncertain_iff "gun.mp4" "video/mp4" 0 "T" _ (Or.inl (by decide)) rfl).1⟩

/-- C8: the reported confidence is the raw ladder confidence clamped to
`[0.35, 0.99]`, hence always inside that interval. -/
theorem confidence_clamped :
    ∀ (filename mimeType : String) (nowMs : ℕ) (iso : String) (c : ClassificationResult),
      startsWithStr mimeType "video/" = true ∨ startsWithStr mimeType "image/" = true →
      analyzeFile filename mimeType nowMs iso = .classified c →
      c.confidence = clamp 0.35 0.99 (analyzeMediaContent filename mimeType).confidence ∧
      (0.35 : ℚ) ≤ c.confidence ∧ c.confidence ≤ 0.99 := by
  intro fn mt nowMs iso c hsupp hres
  dsimp only [analyzeFile] at hres
  rw [if_neg (supported_cond hsupp), AnalyzeResult.classified.injEq] at hres
  subst hres
  refine ⟨rfl, ?_, ?_⟩
  · exact le_min (by norm_num) (le_max_left _ _)
  · exact min_le_left _ _

/-- C8 witness at a concrete input. -/
theorem confidence_clamped_witness :
    ∃ c, analyzeFile "a.jpg" "image/jpeg" 0 "T" = .classified c ∧
      c.confidence = clamp 0.35 0.99 (analyzeMediaContent "a.jpg" "image/jpeg").confidence ∧
      (0.35 : ℚ) ≤ c.confidence ∧ c.confidence ≤ 0.99 :=
  ⟨_, rfl, confidence_clamped "a.jpg" "image/jpeg" 0 "T" _ (Or.inr (by decide)) rfl⟩

/-- C10: a `normal` ladder category only occurs with raw confidence
below 0.35 (at most 0.31 for video, 0.29 for image), so its reported
`anomalyDetected` is false; and the recommended action of a supported
input is always `manual_review` or `alert`, never `none`. -/
theorem normal_low_confidence_and_actions :
    ∀ (filename mimeType : String) (nowMs : ℕ) (iso : String) (c : ClassificationResult),
      startsWithStr mimeType "video/" = true ∨ startsWithStr mimeType "image/" = true →
      analyzeFile filename mimeType nowMs iso = .classified c →
      ((analyzeMediaContent filename mimeType).type = "normal" →
        (analyzeMediaContent filename mimeType).confidence < 0.35 ∧
        ((analyzeMediaContent filename mimeType).isVideo = true →
          (analyzeMediaContent filename mimeType).confidence ≤ 0.31) ∧
        ((analyzeMediaContent filename mimeType).isVideo = false →
          (analyzeMediaContent filename mimeType).confidence ≤ 0.29) ∧
        c.anomalyDetected = false) ∧
      (c.recommendedAction = "manual_review" ∨ c.recommendedAction = "alert") := by
  intro fn mt nowMs iso c hsupp hres
  dsimp only [analyzeFile] at hres
  rw [if_neg (supported_cond hsupp), AnalyzeResult.classified.injEq] at hres
  subst hres
  constructor
  · intro ht
    obtain ⟨hlt, hv, hi⟩ := (amc_facts fn mt).2.2 ht
    refine ⟨hlt, hv, hi, ?_⟩
    dsimp only
    have e1 : decide ((analyzeMediaContent fn mt).type ≠ "normal") = false := by simp [ht]
    have e3 : decide ((analyzeMediaContent fn mt).confidence ≥ 0.35) = false := by
      have : ¬((analyzeMediaContent fn mt).confidence ≥ 0.35) := not_le.mpr hlt
      simp [this]
    rw [e1, e3]
    simp
  · dsimp only
    by_cases hcl : (analyzeMediaContent fn mt).confidence < 0.50
    · left
      rw [if_pos hcl]
    · right
      rw [if_neg hcl]
      have ht : (analyzeMediaContent fn mt).type ≠ "normal" := by
        intro h
        exact hcl (lt_of_lt_of_le ((amc_facts fn mt).2.2 h).1 (by norm_num))
      have hc : (analyzeMediaContent fn mt).confidence ≥ 0.50 := not_lt.mp hcl
      have hA : (decide ((analyzeMediaContent fn mt).type ≠ "normal") &&
          decide ((analyzeMediaContent fn mt).confidence ≥ 0.50)) = true := by simp [ht, hc]
      rw [if_pos hA]

/-- C10 witness at a concrete input. -/
theorem normal_low_confidence_and_actions_witness :
    ∃ c, analyzeFile "a.jpg" "image/jpeg" 0 "T" = .classified c ∧
      (c.recommendedAction = "manual_review" ∨ c.recommendedAction = "alert") :=
  ⟨_, rfl,
    (normal_low_confidence_and_actions "a.jpg" "image/jpeg" 0 "T" _ (Or.inr (by decide)) rfl).2⟩
